import Mathlib

/-!
Verification of the GAA file-organizer daemon (Go) against its specification.

Shallow embedding: the pure logic of the Go sources is translated into Lean
definitions; filesystem state is passed explicitly and I/O failures are
injected through explicit environment parameters.  Sources embedded:
  - src/processor/rules.go   (MatchRule and its predicate helpers)
  - src/processor/mover.go   (MoveFile, handleConflict, generateUniqueName, copyFile)
  - src/config/config.go     (per-rule validation logic of Config.Validate)
  - src/watcher/watcher.go   (handleEvent, isTempFile, IsFileReady, addPath walk)
-/

namespace GAA

/-! ## String helpers mirroring Go's `strings` package (ASCII inputs) -/

/-- Go `strings.ToLower`, restricted to ASCII (all strings in scope are ASCII). -/
def goToLower (s : String) : String :=
  String.mk (s.toList.map Char.toLower)

/-- `listStarts l₁ l₂` : is `l₁` a prefix of `l₂` (element-wise equality). -/
def listStarts {α : Type} [DecidableEq α] : List α → List α → Bool
  | [], _ => true
  | _ :: _, [] => false
  | a :: as, b :: bs => a = b && listStarts as bs

/-- `listInside l₁ l₂` : does `l₁` occur contiguously inside `l₂`. -/
def listInside {α : Type} [DecidableEq α] : List α → List α → Bool
  | l, [] => l.isEmpty
  | l, b :: bs => listStarts l (b :: bs) || listInside l bs

/-- Go `strings.HasPrefix s p`. -/
def goStartsWith (s p : String) : Bool := listStarts p.toList s.toList

/-- Go `strings.HasSuffix s suf`. -/
def goEndsWith (s suf : String) : Bool :=
  listStarts suf.toList.reverse s.toList.reverse

/-- Go `strings.Contains s sub`. -/
def goContains (s sub : String) : Bool := listInside sub.toList s.toList

/-- Go `strings.TrimSuffix s suf`: remove `suf` once if `s` ends with it. -/
def goTrimEnd (s suf : String) : String :=
  if goEndsWith s suf then
    String.mk (s.toList.take (s.toList.length - suf.toList.length))
  else s

/-! ## Path helpers mirroring Go's `path/filepath` (slash-separated paths) -/

/-- Go `filepath.Base`: last element of the path, trailing slashes removed;
`"."` for the empty path, `"/"` when the path is all slashes. -/
def pathBase (p : String) : String :=
  if p = "" then "." else
    let cs := p.toList.reverse.dropWhile (fun c => c = '/')
    if cs = [] then "/" else String.mk ((cs.takeWhile (fun c => c ≠ '/')).reverse)

/-- Go `filepath.Ext`: the suffix of the final path element starting at its
final dot, empty when the final element has no dot. -/
def pathExt (p : String) : String :=
  let revSeg := p.toList.reverse.takeWhile (fun c => c ≠ '/')
  if revSeg.contains '.' then
    String.mk (((revSeg.takeWhile (fun c => c ≠ '.')) ++ ['.']).reverse)
  else ""

/-- Go `filepath.Dir` for already-clean paths: everything before the last
slash; `"."` when there is no slash, `"/"` for a root-level entry. -/
def pathDir (p : String) : String :=
  let rev := p.toList.reverse.dropWhile (fun c => c ≠ '/')
  let rev2 := rev.dropWhile (fun c => c = '/')
  if rev2 = [] then (if rev = [] then "." else "/") else String.mk rev2.reverse

/-- Go `filepath.Join dir name` for already-clean components. -/
def pathJoin (dir name : String) : String := dir ++ "/" ++ name

/-! ## Data model: `config.Rule`

`processor/rules.go` reads four predicate lists (`Extensions`, `NameContains`,
`NameContainsAll`, `NameStartsWith`); the `Rule` struct shown in
`config/config.go` carries only three of them (no `NameContainsAll`) and its
`Validate` reads only those three.  The embedding uses the four-field struct
required by the matcher; the validator below reads exactly the three fields
that `config.go` reads. -/

structure Rule where
  Name : String
  Extensions : List String
  NameContains : List String
  NameContainsAll : List String
  NameStartsWith : List String
  Destination : String
  ConflictStrategy : String
deriving DecidableEq, Repr

/-! ## Rule matcher — src/processor/rules.go -/

/-- `matchesExtension` from rules.go: the (already lower-cased) file extension
equals some lower-cased member of the rule's extension list. -/
def matchesExtension (ext : String) (extensions : List String) : Bool :=
  extensions.any (fun ruleExt => ext = goToLower ruleExt)

/-- `matchesContains` from rules.go: the name contains some lower-cased pattern. -/
def matchesContains (nameWithoutExt : String) (patterns : List String) : Bool :=
  patterns.any (fun pat => goContains nameWithoutExt (goToLower pat))

/-- `matchesContainsAll` from rules.go: the name contains every lower-cased pattern. -/
def matchesContainsAll (nameWithoutExt : String) (patterns : List String) : Bool :=
  patterns.all (fun pat => goContains nameWithoutExt (goToLower pat))

/-- `matchesStartsWith` from rules.go: the name starts with some lower-cased pattern. -/
def matchesStartsWith (nameWithoutExt : String) (prefixes : List String) : Bool :=
  prefixes.any (fun pre => goStartsWith nameWithoutExt (goToLower pre))

/-- The lower-cased extension computed by `MatchRule`:
`ext := strings.ToLower(filepath.Ext(filename))` with `filename := filepath.Base(filePath)`. -/
def fileExtOf (filePath : String) : String :=
  goToLower (pathExt (pathBase filePath))

/-- The name `MatchRule` evaluates the name predicates on:
`nameWithoutExt := strings.ToLower(strings.TrimSuffix(filename, ext))`.
Note the source trims the lower-cased extension from the original-case
filename, so an upper-case extension is not removed. -/
def fileNameNoExtOf (filePath : String) : String :=
  goToLower (goTrimEnd (pathBase filePath) (fileExtOf filePath))

/-- The four sequential per-rule checks of the `MatchRule` loop body, each
vacuously true when its list is empty. -/
def ruleMatchesOn (ext nameWithoutExt : String) (r : Rule) : Bool :=
  (r.Extensions.isEmpty || matchesExtension ext r.Extensions)
  && (r.NameContains.isEmpty || matchesContains nameWithoutExt r.NameContains)
  && (r.NameContainsAll.isEmpty || matchesContainsAll nameWithoutExt r.NameContainsAll)
  && (r.NameStartsWith.isEmpty || matchesStartsWith nameWithoutExt r.NameStartsWith)

/-- The rule iteration of `MatchRule`: first rule passing all checks, else none. -/
def matchLoop (ext nameWithoutExt : String) : List Rule → Option Rule
  | [] => none
  | r :: rest =>
    if ruleMatchesOn ext nameWithoutExt r then some r
    else matchLoop ext nameWithoutExt rest

/-- `MatchRule` from src/processor/rules.go. -/
def MatchRule (filePath : String) (rules : List Rule) : Option Rule :=
  matchLoop (fileExtOf filePath) (fileNameNoExtOf filePath) rules

/-- Whether one rule matches a file path (the loop body's conjunction). -/
def ruleMatches (filePath : String) (r : Rule) : Bool :=
  ruleMatchesOn (fileExtOf filePath) (fileNameNoExtOf filePath) r

/-! ## Config validation — src/config/config.go, per-rule checks of `Validate`

`Validate` iterates monitors and rules and returns the first error.  The
per-rule logic (lines 104-134) is pure apart from the final `MkdirAll`,
which only creates the destination directory and is modelled as succeeding.
Its matching-criterion check reads exactly three lists:
`len(rule.Extensions) == 0 && len(rule.NameContains) == 0 && len(rule.NameStartsWith) == 0`. -/

inductive ValidateErr where
  | noName
  | noCriterion
  | noDestination
  | badStrategy (s : String)
deriving DecidableEq, Repr

/-- The strategy set accepted by `Validate`. -/
def validStrategy (s : String) : Bool :=
  s = "rename" || s = "overwrite" || s = "skip"

/-- The per-rule validation of `Config.Validate` (config.go lines 104-134). -/
def validateRule (r : Rule) : Except ValidateErr Unit :=
  if r.Name = "" then .error .noName
  else if r.Extensions.isEmpty && r.NameContains.isEmpty && r.NameStartsWith.isEmpty then
    .error .noCriterion
  else if r.Destination = "" then .error .noDestination
  else if !validStrategy r.ConflictStrategy then .error (.badStrategy r.ConflictStrategy)
  else .ok ()

/-! ## Directory watcher — src/watcher/watcher.go -/

/-- The bits of an fsnotify event's `Op` bitmask consulted by `handleEvent`. -/
structure EventOp where
  create : Bool
  write : Bool
  chmod : Bool
deriving DecidableEq, Repr

/-- Result of the `os.Stat` performed by `handleEvent` (filter 3). -/
inductive StatRes where
  | missing
  | statErr
  | found (isDir : Bool)
deriving DecidableEq, Repr

/-- `Job` from src/watcher/pool.go. -/
structure Job where
  FilePath : String
  Rules : List Rule
deriving DecidableEq, Repr

/-- The externally observable outcome of `handleEvent`.  `submitJob`
represents handing a `Job` to the worker pool (`WorkerPool.Submit` in
pool.go), the hand-off the specification's pipeline describes; the other
constructors are the returns actually present in watcher.go. -/
inductive EventOutcome where
  | dropChmod
  | dropOp
  | dropMissing
  | dropStatErr
  | dropDir
  | addWatch (path : String)
  | dropHidden
  | dropTemp
  | logReady (path : String)
  | logNotReady (path : String)
  | submitJob (job : Job)
deriving DecidableEq, Repr

/-- The deny-list of `isTempFile` (watcher.go lines 184-203). -/
def tempExtensions : List String :=
  [".tmp", ".temp", ".crdownload", ".part", ".download", ".partial"]

/-- `isTempFile` from watcher.go: the lower-cased filename ends in a
deny-listed extension. -/
def isTempFile (filename : String) : Bool :=
  tempExtensions.any (fun ext => goEndsWith (goToLower filename) ext)

/-- `handleEvent` from watcher.go (lines 126-182).  `recursive` is the
Monitor's flag, `name` the event path, `st` the stat result, `ready` the
result of the `IsFileReady` call (modelled separately below). -/
def handleEvent (recursive : Bool) (name : String) (op : EventOp) (st : StatRes)
    (ready : Bool) : EventOutcome :=
  if op.chmod then .dropChmod
  else if !op.create && !op.write then .dropOp
  else
    match st with
    | .missing => .dropMissing
    | .statErr => .dropStatErr
    | .found true =>
      if recursive && op.create then .addWatch name else .dropDir
    | .found false =>
      let filename := pathBase name
      if goStartsWith filename "." then .dropHidden
      else if isTempFile filename then .dropTemp
      else if ready then .logReady name else .logNotReady name

/-- One attempt's outcome inside `IsFileReady`: a successful open followed by
a stat giving the size (`none` when the file vanished between open and stat),
or one of the open errors the code distinguishes. -/
inductive OpenRes where
  | opened (statSize : Option Nat)
  | errMissing
  | errPermission
  | errOther
deriving DecidableEq, Repr

/-- The retry loop of `IsFileReady` (watcher.go lines 207-250).  `att i` is
the outcome of the open on attempt `i`; the returned `Nat` counts the
`time.Sleep(fw.delay)` calls performed.  `fuel` is `maxRetries - i`; the
code sleeps only when `i < maxRetries-1`. -/
def isFileReadyLoop (att : Nat → OpenRes) (i : Nat) : Nat → Nat → Bool × Nat
  | 0, sleeps => (false, sleeps)
  | fuel + 1, sleeps =>
    match att i with
    | .opened none => (false, sleeps)
    | .opened (some _) => (true, sleeps)
    | .errMissing => (false, sleeps)
    | .errPermission => (false, sleeps)
    | .errOther =>
      if fuel = 0 then (false, sleeps)
      else isFileReadyLoop att (i + 1) fuel (sleeps + 1)

/-- `IsFileReady` with `maxRetries := 3`, also reporting the number of
inter-attempt delays taken. -/
def IsFileReady (att : Nat → OpenRes) : Bool × Nat :=
  isFileReadyLoop att 0 3 0

/-- The set of subdirectory paths the startup walk of `addPath`
(watcher.go lines 50-84) registers with the fsnotify watcher, given the
walked entries as (path, isDir) pairs: directories only, hidden base names
excluded, the root itself not re-added. -/
def walkWatchAdds (root : String) (entries : List (String × Bool)) : List String :=
  (entries.filter (fun e =>
    e.2 && !(goStartsWith (pathBase e.1) ".") && e.1 ≠ root)).map (fun e => e.1)

/-! ## Filesystem model and the mover — src/processor/mover.go

The filesystem is a finite map from paths to file contents plus a set of
directories.  Failures of `os.Rename`, `os.Create`, `io.Copy`, `Sync` and
the post-copy `os.Remove` are injected through `MoveEnv`; `os.MkdirAll` is
modelled as succeeding (it only creates directories).  The best-effort
`os.Chmod` carry-over of permission bits at the end of `copyFile` is not
modelled (its failure is ignored by the source). -/

structure FState where
  files : List (String × String)
  dirs : List String
deriving DecidableEq, Repr

/-- Look a path up in the file map. -/
def lookCore : List (String × String) → String → Option String
  | [], _ => none
  | e :: rest, p => if e.1 = p then some e.2 else lookCore rest p

/-- Drop every entry for a path from the file map. -/
def removeCore : List (String × String) → String → List (String × String)
  | [], _ => []
  | e :: rest, p => if e.1 = p then removeCore rest p else e :: removeCore rest p

def FState.lookup (fs : FState) (p : String) : Option String :=
  lookCore fs.files p

def FState.isDir (fs : FState) (p : String) : Bool := fs.dirs.contains p

/-- `os.Stat` succeeding: a file or a directory exists at `p`. -/
def FState.existsPath (fs : FState) (p : String) : Bool :=
  (fs.lookup p).isSome || fs.isDir p

def FState.setFile (fs : FState) (p c : String) : FState :=
  { fs with files := (p, c) :: removeCore fs.files p }

def FState.removeFile (fs : FState) (p : String) : FState :=
  { fs with files := removeCore fs.files p }

def FState.mkdirAll (fs : FState) (d : String) : FState :=
  if fs.dirs.contains d then fs else { fs with dirs := d :: fs.dirs }

/-- Outcome of the `os.Rename` call in `MoveFile`. -/
inductive RenameOutcome where
  | ok
  | crossDevice
  | otherErr
deriving DecidableEq, Repr

/-- Injected I/O failure pattern for one `MoveFile` call.  `truncatedContent`
is whatever partial data `io.Copy` wrote before failing; `timestamp` is
`time.Now().Format("20060102_150405")`. -/
structure MoveEnv where
  rename : RenameOutcome
  createFails : Bool
  copyContentFails : Bool
  truncatedContent : String
  syncFails : Bool
  removeSourceFails : Bool
  timestamp : String
deriving DecidableEq, Repr

/-- The error returns of `MoveFile` and its helpers, by source message. -/
inductive MoveErr where
  | unknownStrategy (s : String)   -- "unknown conflict strategy: ..."
  | moveFailed                     -- "failed to move file: ..."
  | copyOpenSource                 -- "failed to open source file: ..."
  | copyCreateDest                 -- "failed to create destination file: ..."
  | copyContent                    -- "failed to copy file content: ..."
  | copySync                       -- "failed to sync destination file: ..."
deriving DecidableEq, Repr

/-- The counter loop of `generateUniqueName` (mover.go lines 115-140).
`fuel` is the number of counter values still to try; when it runs out
(counter passed 1000) the timestamp fallback name is returned. -/
def genUniqueLoop (fs : FState) (dir nameNoExt ext ts : String) :
    Nat → Nat → String
  | _, 0 => pathJoin dir (nameNoExt ++ "_" ++ ts ++ ext)
  | counter, fuel + 1 =>
    let newPath := pathJoin dir (nameNoExt ++ "_" ++ toString counter ++ ext)
    if fs.existsPath newPath then
      genUniqueLoop fs dir nameNoExt ext ts (counter + 1) fuel
    else newPath

/-- `generateUniqueName` from mover.go: counter starts at 1; the source's
`counter > 1000` guard means counters 1..1000 are tried before the fallback. -/
def generateUniqueName (fs : FState) (ts : String) (destPath : String) : String :=
  let dir := pathDir destPath
  let ext := pathExt destPath
  let nameNoExt := goTrimEnd (pathBase destPath) ext
  genUniqueLoop fs dir nameNoExt ext ts 1 1000

/-- The counter-suffixed candidate name tried by `generateUniqueName` for a
given counter value: `_<k>` inserted before the extension. -/
def uniqueCandidate (destPath : String) (k : Nat) : String :=
  pathJoin (pathDir destPath)
    (goTrimEnd (pathBase destPath) (pathExt destPath) ++ "_" ++ toString k ++ pathExt destPath)

/-- The timestamp fallback name produced after the counter bound is
exhausted: `_<timestamp>` inserted before the extension. -/
def timestampFallback (destPath ts : String) : String :=
  pathJoin (pathDir destPath)
    (goTrimEnd (pathBase destPath) (pathExt destPath) ++ "_" ++ ts ++ pathExt destPath)

/-- `handleConflict` from mover.go (lines 88-111). -/
def handleConflict (fs : FState) (ts : String) (destPath strategy : String) :
    Except MoveErr String :=
  if strategy = "overwrite" then .ok destPath
  else if strategy = "rename" then .ok (generateUniqueName fs ts destPath)
  else .error (.unknownStrategy strategy)

/-- `copyFile` from mover.go (lines 143-181): open source, create destination,
copy content (on failure the partial destination is removed), sync. -/
def copyFile (env : MoveEnv) (fs : FState) (src dst : String) :
    Except MoveErr Unit × FState :=
  match fs.lookup src with
  | none => (.error .copyOpenSource, fs)
  | some content =>
    if env.createFails then (.error .copyCreateDest, fs)
    else if env.copyContentFails then
      (.error .copyContent, (fs.setFile dst env.truncatedContent).removeFile dst)
    else if env.syncFails then (.error .copySync, fs.setFile dst content)
    else (.ok (), fs.setFile dst content)

/-- `MoveFile` from mover.go (lines 15-85).  A missing source or a directory
source returns success without touching anything (warn-and-skip in the
source); then the destination directory is created, the conflict strategy is
applied only when `destPath` is occupied, and the rename (with cross-device
copy+delete fallback) runs. -/
def MoveFile (env : MoveEnv) (fs : FState)
    (sourcePath destDir strategy : String) : Except MoveErr Unit × FState :=
  match fs.lookup sourcePath with
  | none => (.ok (), fs)
  | some content =>
    let filename := pathBase sourcePath
    let destPath := pathJoin destDir filename
    let fs1 := fs.mkdirAll destDir
    let destRes :=
      if fs1.existsPath destPath then handleConflict fs1 env.timestamp destPath strategy
      else .ok destPath
    match destRes with
    | .error e => (.error e, fs1)
    | .ok dest =>
      match env.rename with
      | .ok => (.ok (), (fs1.removeFile sourcePath).setFile dest content)
      | .otherErr => (.error .moveFailed, fs1)
      | .crossDevice =>
        match copyFile env fs1 sourcePath dest with
        | (.error e, fs2) => (.error e, fs2)
        | (.ok _, fs2) =>
          if env.removeSourceFails then (.ok (), fs2)
          else (.ok (), fs2.removeFile sourcePath)

/-! ## Theorems -/

/-- A `some` result of the matching loop is the first satisfying rule. -/
theorem matchLoop_first (ext nm : String) :
    ∀ (rules : List Rule) (r : Rule), matchLoop ext nm rules = some r →
      ∃ pre post, rules = pre ++ r :: post ∧ ruleMatchesOn ext nm r = true ∧
        ∀ q ∈ pre, ruleMatchesOn ext nm q = false := by
  intro rules
  induction rules with
  | nil => intro r h; simp [matchLoop] at h
  | cons a as ih =>
    intro r h
    by_cases ha : ruleMatchesOn ext nm a = true
    · simp [matchLoop, ha] at h
      exact ⟨[], as, by simp [h], h ▸ ha, by simp⟩
    · simp [matchLoop, ha] at h
      obtain ⟨pre, post, hsplit, hr, hpre⟩ := ih r h
      refine ⟨a :: pre, post, by simp [hsplit], hr, ?_⟩
      intro q hq
      rcases List.mem_cons.mp hq with h1 | h2
      · simpa [h1] using Bool.not_eq_true _ |>.mp ha
      · exact hpre q h2

/-- The matching loop yields `none` exactly when no rule satisfies it. -/
theorem matchLoop_none (ext nm : String) :
    ∀ rules : List Rule, (matchLoop ext nm rules = none ↔
      ∀ r ∈ rules, ruleMatchesOn ext nm r = false) := by
  intro rules
  induction rules with
  | nil => simp [matchLoop]
  | cons a as ih =>
    by_cases ha : ruleMatchesOn ext nm a = true
    · simp [matchLoop, ha]
    · simp [matchLoop, ha, ih, Bool.not_eq_true _ |>.mp ha]

/-- C2: in `MatchRule`, `nameWithoutExt` is computed as
`ToLower(TrimSuffix(filename, ToLower(Ext(filename))))`, so for a filename
whose extension is not already lower-case the extension is never trimmed:
for `REPORT.PDF` the name predicates are evaluated against `"report.pdf"`,
not `"report"` as the code's own comment ("Nome sem extensão") and the
specification state.  The spec's concrete example still holds: `REPORT.PDF`
matches a rule requiring extension `.pdf` and name starting with `report`,
because `"report.pdf"` also starts with `"report"`.  But a rule whose
`NameContains` is `[".pdf"]` matches `REPORT.PDF` even though the
extension-stripped name `"report"` does not contain `".pdf"`. -/
theorem c2_name_predicate_sees_extension :
    MatchRule "REPORT.PDF" [⟨"docs", [".pdf"], [], [], ["report"], "dst", "rename"⟩]
      = some ⟨"docs", [".pdf"], [], [], ["report"], "dst", "rename"⟩
    ∧ MatchRule "REPORT.PDF" [⟨"r", [], [".pdf"], [], [], "dst", "rename"⟩]
      = some ⟨"r", [], [".pdf"], [], [], "dst", "rename"⟩
    ∧ fileNameNoExtOf "REPORT.PDF" = "report.pdf"
    ∧ fileNameNoExtOf "report.pdf" = "report"
    ∧ goContains (goTrimEnd (goToLower (pathBase "REPORT.PDF")) ".pdf") ".pdf" = false := by
  decide

/-- C3: `MatchRule` returns the first rule (in list order) for which every
non-empty predicate field evaluates true (a `some` result splits the list
with all earlier rules failing); it returns `none` exactly when no rule
fully matches; evaluation stops at the first fully-satisfying rule; and a
rule with entirely empty predicate fields matches any filename. -/
theorem c3_first_match_semantics (fp : String) (rules : List Rule) :
    (∀ r, MatchRule fp rules = some r →
       ∃ pre post, rules = pre ++ r :: post ∧ ruleMatches fp r = true ∧
         ∀ q ∈ pre, ruleMatches fp q = false)
    ∧ (MatchRule fp rules = none ↔ ∀ r ∈ rules, ruleMatches fp r = false)
    ∧ (∀ (r : Rule) (rest : List Rule), ruleMatches fp r = true →
         MatchRule fp (r :: rest) = some r)
    ∧ (∀ r : Rule, r.Extensions = [] → r.NameContains = [] →
         r.NameContainsAll = [] → r.NameStartsWith = [] → ruleMatches fp r = true) := by
  refine ⟨?_, ?_, ?_, ?_⟩
  · intro r h
    exact matchLoop_first _ _ rules r h
  · exact matchLoop_none _ _ rules
  · intro r rest h
    have h' : ruleMatchesOn (fileExtOf fp) (fileNameNoExtOf fp) r = true := h
    simp [MatchRule, matchLoop, h']
  · intro r h1 h2 h3 h4
    simp [ruleMatches, ruleMatchesOn, h1, h2, h3, h4]

/-- Witness for C3 at concrete inputs: the all-empty rule matches
`notes.txt` and is returned as head of a one-rule list. -/
theorem c3_first_match_semantics_witness :
    MatchRule "notes.txt" [⟨"any", [], [], [], [], "d", "rename"⟩]
      = some ⟨"any", [], [], [], [], "d", "rename"⟩
    ∧ ruleMatches "notes.txt" ⟨"any", [], [], [], [], "d", "rename"⟩ = true := by
  have h := c3_first_match_semantics "notes.txt" [⟨"any", [], [], [], [], "d", "rename"⟩]
  exact ⟨h.2.2.1 ⟨"any", [], [], [], [], "d", "rename"⟩ [] (by decide),
         h.2.2.2 ⟨"any", [], [], [], [], "d", "rename"⟩ rfl rfl rfl rfl⟩

/-- C5 counterexample: a rule whose only non-empty predicate field is
`NameContainsAll` is rejected by the validator with the missing-criterion
error, refuting the claim that validation accepts a rule's predicate fields
whenever at least one of the four lists is non-empty.  (The criterion check
in config.go reads only `Extensions`, `NameContains` and `NameStartsWith`;
its own error message names exactly those three.) -/
theorem c5_contains_all_only_rejected :
    (⟨"only-contains-all", [], [], ["x"], [], "d", "rename"⟩ : Rule).NameContainsAll ≠ []
    ∧ validateRule ⟨"only-contains-all", [], [], ["x"], [], "d", "rename"⟩
      = .error .noCriterion := by
  constructor
  · decide
  · rfl

/-- C5 amended: the validator rejects every rule in which all three of the
extension list, name-contains list and name-starts-with list are empty (the
name-contains-all list is not consulted), and accepts a rule's predicate
fields whenever at least one of those three is non-empty. -/
theorem c5_validator_checks_three_fields :
    (∀ r : Rule, r.Name ≠ "" → r.Extensions = [] → r.NameContains = [] →
       r.NameStartsWith = [] → validateRule r = .error .noCriterion)
    ∧ (∀ r : Rule, r.Name ≠ "" → r.Destination ≠ "" →
       validStrategy r.ConflictStrategy = true →
       (validateRule r = .ok () ↔
         (r.Extensions ≠ [] ∨ r.NameContains ≠ [] ∨ r.NameStartsWith ≠ []))) := by
  constructor
  · intro r h1 h2 h3 h4
    simp [validateRule, h1, h2, h3, h4]
  · intro r h1 h2 h3
    by_cases he : r.Extensions = [] <;> by_cases hc : r.NameContains = [] <;>
      by_cases hs : r.NameStartsWith = [] <;>
      simp [validateRule, h1, h2, h3, he, hc, hs, List.isEmpty_iff]

/-- Witness for C5's amended theorem at concrete rules. -/
theorem c5_validator_checks_three_fields_witness :
    validateRule ⟨"empty", [], [], ["x"], [], "d", "rename"⟩ = .error .noCriterion
    ∧ validateRule ⟨"ok", [".pdf"], [], [], [], "d", "skip"⟩ = .ok () :=
  ⟨c5_validator_checks_three_fields.1 ⟨"empty", [], [], ["x"], [], "d", "rename"⟩
     (by decide) rfl rfl rfl,
   (c5_validator_checks_three_fields.2 ⟨"ok", [".pdf"], [], [], [], "d", "skip"⟩
     (by decide) (by decide) (by decide)).mpr (Or.inl (by decide))⟩

/-- C1: `handleEvent` never hands a `Job` to the worker pool — for every
event it only drops, adds a watch, or logs readiness (the submission that
the pipeline describes is a `TODO` in watcher.go, and `main.go` never
creates a `WorkerPool`).  In particular an admissible, ready file event
ends in `logReady`, not in `submitJob`. -/
theorem c1_watcher_never_submits_job :
    (∀ (recursive : Bool) (name : String) (op : EventOp) (st : StatRes)
       (ready : Bool) (j : Job), handleEvent recursive name op st ready ≠ .submitJob j)
    ∧ handleEvent false "watched/report.pdf" ⟨true, false, false⟩ (.found false) true
      = .logReady "watched/report.pdf" := by
  constructor
  · intro recursive name op st ready j
    unfold handleEvent
    repeat' split
    all_goals simp
    all_goals repeat' split
    all_goals simp
  · decide

/-- C8: the readiness check returns not-ready with zero sleeps when the
first open fails as missing or permission-denied; with an `errOther`
failure on every attempt it performs the bounded three attempts with two
inter-attempt delays and returns not-ready; and an openable file of size
zero is reported ready. -/
theorem c8_readiness_check :
    (∀ att : Nat → OpenRes, (att 0 = .errMissing ∨ att 0 = .errPermission) →
       IsFileReady att = (false, 0))
    ∧ (∀ att : Nat → OpenRes, (∀ i, i < 3 → att i = .errOther) →
       IsFileReady att = (false, 2))
    ∧ (∀ att : Nat → OpenRes, att 0 = .opened (some 0) →
       IsFileReady att = (true, 0)) := by
  refine ⟨?_, ?_, ?_⟩
  · rintro att (h | h) <;> simp [IsFileReady, isFileReadyLoop, h]
  · intro att h
    simp [IsFileReady, isFileReadyLoop,
      h 0 (by norm_num), h 1 (by norm_num), h 2 (by norm_num)]
  · intro att h
    simp [IsFileReady, isFileReadyLoop, h]

/-- Witness for C8 at concrete attempt-outcome functions. -/
theorem c8_readiness_check_witness :
    IsFileReady (fun _ => .errMissing) = (false, 0)
    ∧ IsFileReady (fun _ => .errOther) = (false, 2)
    ∧ IsFileReady (fun _ => .opened (some 0)) = (true, 0) :=
  ⟨c8_readiness_check.1 _ (Or.inl rfl),
   c8_readiness_check.2.1 _ (fun _ _ => rfl),
   c8_readiness_check.2.2 _ rfl⟩

/-- C10: a creation event for a directory under a recursive Monitor reaches
the directory branch before the hidden-name filter, so a directory whose
base name begins with `.` is still added to the subscription set; the
startup walk of `addPath`, by contrast, never registers a hidden
subdirectory. -/
theorem c10_hidden_dir_added_on_event :
    (∀ (name : String) (ready : Bool), goStartsWith (pathBase name) "." = true →
       handleEvent true name ⟨true, false, false⟩ (.found true) ready = .addWatch name)
    ∧ (∀ (root p : String) (entries : List (String × Bool)),
       goStartsWith (pathBase p) "." = true → p ∉ walkWatchAdds root entries) := by
  constructor
  · intro name ready _
    simp [handleEvent]
  · intro root p entries h hmem
    obtain ⟨e, he, rfl⟩ := List.mem_map.mp hmem
    have hf := (List.mem_filter.mp he).2
    simp [h] at hf

/-- Witness for C10 at a concrete hidden directory name. -/
theorem c10_hidden_dir_added_on_event_witness :
    handleEvent true "watched/.cache" ⟨true, false, false⟩ (.found true) false
      = .addWatch "watched/.cache"
    ∧ ".git" ∉ walkWatchAdds "root" [(".git", true)] :=
  ⟨c10_hidden_dir_added_on_event.1 "watched/.cache" false (by decide),
   c10_hidden_dir_added_on_event.2 "root" ".git" [(".git", true)] (by decide)⟩

/-! ### Filesystem-model lemmas -/

theorem lookCore_removeCore_self (p : String) :
    ∀ l : List (String × String), lookCore (removeCore l p) p = none := by
  intro l
  induction l with
  | nil => rfl
  | cons a as ih =>
    by_cases ha : a.1 = p <;> simp [removeCore, lookCore, ha, ih]

theorem lookCore_removeCore_ne (p q : String) (h : q ≠ p) :
    ∀ l : List (String × String), lookCore (removeCore l p) q = lookCore l q := by
  intro l
  induction l with
  | nil => rfl
  | cons a as ih =>
    by_cases hap : a.1 = p
    · have haq : ¬(a.1 = q) := fun hq => h (hq.symm.trans hap)
      simp [removeCore, lookCore, hap, haq, ih, Ne.symm h]
    · by_cases haq : a.1 = q <;> simp [removeCore, lookCore, hap, haq, ih, h]

theorem lookup_setFile_self (fs : FState) (p c : String) :
    (fs.setFile p c).lookup p = some c := by
  simp [FState.setFile, FState.lookup, lookCore]

theorem lookup_setFile_ne (fs : FState) (p c q : String) (h : q ≠ p) :
    (fs.setFile p c).lookup q = fs.lookup q := by
  simp [FState.setFile, FState.lookup, lookCore, Ne.symm h,
    lookCore_removeCore_ne p q h]

theorem lookup_removeFile_self (fs : FState) (p : String) :
    (fs.removeFile p).lookup p = none := by
  simp [FState.removeFile, FState.lookup, lookCore_removeCore_self]

theorem lookup_removeFile_ne (fs : FState) (p q : String) (h : q ≠ p) :
    (fs.removeFile p).lookup q = fs.lookup q := by
  simp [FState.removeFile, FState.lookup, lookCore_removeCore_ne p q h]

theorem mkdirAll_files (fs : FState) (d : String) :
    (fs.mkdirAll d).files = fs.files := by
  unfold FState.mkdirAll
  split <;> rfl

theorem lookup_mkdirAll (fs : FState) (d p : String) :
    (fs.mkdirAll d).lookup p = fs.lookup p := by
  unfold FState.lookup
  rw [mkdirAll_files]

theorem existsPath_mkdirAll (fs : FState) (d p : String) (h : p ≠ d) :
    (fs.mkdirAll d).existsPath p = fs.existsPath p := by
  unfold FState.existsPath FState.isDir
  rw [lookup_mkdirAll]
  congr 1
  unfold FState.mkdirAll
  split
  · rfl
  · simp [List.contains_cons, h]

theorem pathJoin_ne_left (d b : String) : pathJoin d b ≠ d := by
  intro h
  have hlen : (pathJoin d b).length = d.length := by rw [h]
  have h1 : ("/" : String).length = 1 := rfl
  simp [pathJoin, String.length_append, h1] at hlen
  omega

/-- C4: when a file already occupies `destination/filename` and the conflict
strategy is neither `rename` nor `overwrite` (e.g. `skip`), `MoveFile`
returns the unknown-strategy error and the file map is left exactly as it
was — both the source file and the pre-existing destination file are
untouched (only the destination directory entry may have been created). -/
theorem c4_unknown_strategy_error (env : MoveEnv) (fs : FState)
    (src destDir strat c d : String)
    (hsrc : fs.lookup src = some c)
    (hdest : fs.lookup (pathJoin destDir (pathBase src)) = some d)
    (h1 : strat ≠ "rename") (h2 : strat ≠ "overwrite") :
    MoveFile env fs src destDir strat
      = (.error (.unknownStrategy strat), fs.mkdirAll destDir)
    ∧ (fs.mkdirAll destDir).files = fs.files := by
  refine ⟨?_, mkdirAll_files fs destDir⟩
  have hex : (fs.mkdirAll destDir).existsPath (pathJoin destDir (pathBase src)) = true := by
    unfold FState.existsPath
    rw [lookup_mkdirAll, hdest]
    rfl
  simp [MoveFile, hsrc, hex, handleConflict, h1, h2]

/-- Witness for C4: with strategy `skip`, a source file and an occupied
destination, `MoveFile` fails with the unknown-strategy error. -/
theorem c4_unknown_strategy_error_witness :
    MoveFile ⟨.ok, false, false, "", false, false, "ts"⟩
        ⟨[("s/a.txt", "A"), ("d/a.txt", "B")], []⟩ "s/a.txt" "d" "skip"
      = (.error (.unknownStrategy "skip"),
         FState.mkdirAll ⟨[("s/a.txt", "A"), ("d/a.txt", "B")], []⟩ "d") :=
  (c4_unknown_strategy_error ⟨.ok, false, false, "", false, false, "ts"⟩
    ⟨[("s/a.txt", "A"), ("d/a.txt", "B")], []⟩ "s/a.txt" "d" "skip" "A" "B"
    (by decide) (by decide) (by decide) (by decide)).1

/-- If every counter in the window `[counter, counter+fuel)` names an
occupied path, the unique-name loop falls back to the timestamp name. -/
theorem genUniqueLoop_all_taken (fs : FState) (dir nm ext ts : String) :
    ∀ fuel counter,
      (∀ j, counter ≤ j → j < counter + fuel →
         fs.existsPath (pathJoin dir (nm ++ "_" ++ toString j ++ ext)) = true) →
      genUniqueLoop fs dir nm ext ts counter fuel
        = pathJoin dir (nm ++ "_" ++ ts ++ ext) := by
  intro fuel
  induction fuel with
  | zero => intro counter _; rfl
  | succ f ih =>
    intro counter h
    have hc := h counter (Nat.le_refl _) (by omega)
    rw [genUniqueLoop, if_pos hc]
    exact ih (counter + 1) (fun j hj1 hj2 => h j (by omega) (by omega))

/-- The unique-name loop returns the candidate of the least free counter in
its window. -/
theorem genUniqueLoop_first_free (fs : FState) (dir nm ext ts : String) :
    ∀ fuel counter k, counter ≤ k → k < counter + fuel →
      fs.existsPath (pathJoin dir (nm ++ "_" ++ toString k ++ ext)) = false →
      (∀ j, counter ≤ j → j < k →
         fs.existsPath (pathJoin dir (nm ++ "_" ++ toString j ++ ext)) = true) →
      genUniqueLoop fs dir nm ext ts counter fuel
        = pathJoin dir (nm ++ "_" ++ toString k ++ ext) := by
  intro fuel
  induction fuel with
  | zero => intro counter k h1 h2 _ _; omega
  | succ f ih =>
    intro counter k h1 h2 hk hprev
    by_cases hck : counter = k
    · subst hck
      rw [genUniqueLoop, if_neg (by rw [hk]; exact Bool.false_ne_true)]
    · have hc : fs.existsPath (pathJoin dir (nm ++ "_" ++ toString counter ++ ext)) = true :=
        hprev counter (Nat.le_refl _) (by omega)
      rw [genUniqueLoop, if_pos hc]
      exact ih (counter + 1) k (by omega) (by omega) hk
        (fun j hj1 hj2 => hprev j (by omega) hj2)

/-- C7: when the destination path is occupied, the rename strategy's
unique-name generation appends `_<counter>` before the extension, the
counter starting at 1 and incrementing until a name not present on disk is
found; after 1000 occupied attempts it falls back to appending the
timestamp (`time.Now().Format("20060102_150405")`, a sortable date-time to
second precision) instead of a counter. -/
theorem c7_unique_name_generation (fs : FState) (ts destPath : String) :
    ((∀ k, 1 ≤ k → k ≤ 1000 → fs.existsPath (uniqueCandidate destPath k) = true) →
       generateUniqueName fs ts destPath = timestampFallback destPath ts)
    ∧ (∀ k, 1 ≤ k → k ≤ 1000 → fs.existsPath (uniqueCandidate destPath k) = false →
       (∀ j, 1 ≤ j → j < k → fs.existsPath (uniqueCandidate destPath j) = true) →
       generateUniqueName fs ts destPath = uniqueCandidate destPath k) := by
  constructor
  · intro h
    exact genUniqueLoop_all_taken fs _ _ _ ts 1000 1
      (fun j hj1 hj2 => h j hj1 (by omega))
  · intro k hk1 hk2 hfree hprev
    exact genUniqueLoop_first_free fs _ _ _ ts 1000 1 k hk1 (by omega) hfree
      (fun j hj1 hj2 => hprev j hj1 hj2)

/-- Witness for C7: on an empty filesystem the first candidate `a_1.txt` is
free and is returned. -/
theorem c7_unique_name_generation_witness :
    generateUniqueName ⟨[], []⟩ "20250101_000000" "d/a.txt"
      = uniqueCandidate "d/a.txt" 1 :=
  (c7_unique_name_generation ⟨[], []⟩ "20250101_000000" "d/a.txt").2 1
    (by omega) (by omega) (by decide)
    (fun j hj1 hj2 => absurd hj2 (by omega))

/-- C6: when the rename fails cross-device and the destination path is free,
`MoveFile` copies the byte content to the destination, syncs, and removes
the source.  (a) With no injected failures the move succeeds, the
destination holds the source's content and the source is gone.  (b) If the
content copy fails partway, the partially-written destination file is
removed, the error is surfaced, and the source is untouched.  (c) If only
the post-copy removal of the source fails, the move still reports success
(warning only): the destination holds the content and a duplicate remains
at the source. -/
theorem c6_cross_device_fallback (env : MoveEnv) (fs : FState)
    (src destDir strat c : String)
    (hsrc : fs.lookup src = some c)
    (hdest : fs.existsPath (pathJoin destDir (pathBase src)) = false)
    (hren : env.rename = .crossDevice) :
    (env.createFails = false → env.copyContentFails = false → env.syncFails = false →
       env.removeSourceFails = false →
       (MoveFile env fs src destDir strat).1 = .ok ()
       ∧ (MoveFile env fs src destDir strat).2.lookup (pathJoin destDir (pathBase src)) = some c
       ∧ (MoveFile env fs src destDir strat).2.lookup src = none)
    ∧ (env.createFails = false → env.copyContentFails = true →
       (MoveFile env fs src destDir strat).1 = .error .copyContent
       ∧ (MoveFile env fs src destDir strat).2.lookup (pathJoin destDir (pathBase src)) = none
       ∧ (MoveFile env fs src destDir strat).2.lookup src = some c)
    ∧ (env.createFails = false → env.copyContentFails = false → env.syncFails = false →
       env.removeSourceFails = true →
       (MoveFile env fs src destDir strat).1 = .ok ()
       ∧ (MoveFile env fs src destDir strat).2.lookup (pathJoin destDir (pathBase src)) = some c
       ∧ (MoveFile env fs src destDir strat).2.lookup src = some c) := by
  have hlookdp : fs.lookup (pathJoin destDir (pathBase src)) = none := by
    rcases hl : fs.lookup (pathJoin destDir (pathBase src)) with _ | v
    · rfl
    · exfalso
      unfold FState.existsPath at hdest
      rw [hl] at hdest
      simp at hdest
  have hne : src ≠ pathJoin destDir (pathBase src) := by
    intro he
    rw [← he] at hlookdp
    rw [hlookdp] at hsrc
    exact Option.noConfusion hsrc
  have hex' : (fs.mkdirAll destDir).existsPath (pathJoin destDir (pathBase src)) = false := by
    rw [existsPath_mkdirAll fs destDir _ (pathJoin_ne_left destDir (pathBase src))]
    exact hdest
  have hsrc' : (fs.mkdirAll destDir).lookup src = some c := by
    rw [lookup_mkdirAll]
    exact hsrc
  refine ⟨?_, ?_, ?_⟩
  · intro hcf hccf hsf hrsf
    have hred : MoveFile env fs src destDir strat
        = (.ok (), ((fs.mkdirAll destDir).setFile (pathJoin destDir (pathBase src)) c).removeFile src) := by
      simp [MoveFile, hsrc, hex', hren, copyFile, hsrc', hcf, hccf, hsf, hrsf]
    rw [hred]
    exact ⟨rfl,
      by rw [lookup_removeFile_ne _ _ _ (Ne.symm hne), lookup_setFile_self],
      lookup_removeFile_self _ _⟩
  · intro hcf hccf
    have hred : MoveFile env fs src destDir strat
        = (.error .copyContent,
           ((fs.mkdirAll destDir).setFile (pathJoin destDir (pathBase src)) env.truncatedContent).removeFile
             (pathJoin destDir (pathBase src))) := by
      simp [MoveFile, hsrc, hex', hren, copyFile, hsrc', hcf, hccf]
    rw [hred]
    exact ⟨rfl, lookup_removeFile_self _ _,
      by rw [lookup_removeFile_ne _ _ _ hne, lookup_setFile_ne _ _ _ _ hne, lookup_mkdirAll, hsrc]⟩
  · intro hcf hccf hsf hrsf
    have hred : MoveFile env fs src destDir strat
        = (.ok (), (fs.mkdirAll destDir).setFile (pathJoin destDir (pathBase src)) c) := by
      simp [MoveFile, hsrc, hex', hren, copyFile, hsrc', hcf, hccf, hsf, hrsf]
    rw [hred]
    exact ⟨rfl, lookup_setFile_self _ _ _,
      by rw [lookup_setFile_ne _ _ _ _ hne, lookup_mkdirAll, hsrc]⟩

/-- Witness for C6 at a concrete cross-device move with no injected failures. -/
theorem c6_cross_device_fallback_witness :
    (MoveFile ⟨.crossDevice, false, false, "", false, false, "ts"⟩
        ⟨[("s/a.txt", "A")], []⟩ "s/a.txt" "d" "rename").1 = .ok ()
    ∧ (MoveFile ⟨.crossDevice, false, false, "", false, false, "ts"⟩
        ⟨[("s/a.txt", "A")], []⟩ "s/a.txt" "d" "rename").2.lookup
          (pathJoin "d" (pathBase "s/a.txt")) = some "A"
    ∧ (MoveFile ⟨.crossDevice, false, false, "", false, false, "ts"⟩
        ⟨[("s/a.txt", "A")], []⟩ "s/a.txt" "d" "rename").2.lookup "s/a.txt" = none :=
  (c6_cross_device_fallback ⟨.crossDevice, false, false, "", false, false, "ts"⟩
    ⟨[("s/a.txt", "A")], []⟩ "s/a.txt" "d" "rename" "A"
    (by decide) (by decide) rfl).1 rfl rfl rfl rfl

/-- C9: when no file exists at `destination/filename`, `MoveFile` never
consults the conflict strategy: with a succeeding rename it relocates the
source to `destination/filename` and returns success for any strategy value
(including `skip`); and an unknown-strategy error can only arise when the
computed destination path was already occupied. -/
theorem c9_no_conflict_ignores_strategy :
    (∀ (env : MoveEnv) (fs : FState) (src destDir strat c : String),
       env.rename = .ok → fs.lookup src = some c →
       fs.existsPath (pathJoin destDir (pathBase src)) = false →
       MoveFile env fs src destDir strat
         = (.ok (), ((fs.mkdirAll destDir).removeFile src).setFile
             (pathJoin destDir (pathBase src)) c))
    ∧ (∀ (env : MoveEnv) (fs : FState) (src destDir strat s : String) (fsOut : FState),
       MoveFile env fs src destDir strat = (.error (.unknownStrategy s), fsOut) →
       fs.existsPath (pathJoin destDir (pathBase src)) = true) := by
  constructor
  · intro env fs src destDir strat c hren hsrc hdest
    have hex' : (fs.mkdirAll destDir).existsPath (pathJoin destDir (pathBase src)) = false := by
      rw [existsPath_mkdirAll fs destDir _ (pathJoin_ne_left destDir (pathBase src))]
      exact hdest
    simp [MoveFile, hsrc, hex', hren]
  · intro env fs src destDir strat s fsOut h
    by_cases hex : (fs.mkdirAll destDir).existsPath (pathJoin destDir (pathBase src)) = true
    · rwa [existsPath_mkdirAll fs destDir _ (pathJoin_ne_left destDir (pathBase src))] at hex
    · exfalso
      have hex' : (fs.mkdirAll destDir).existsPath (pathJoin destDir (pathBase src)) = false := by
        simpa using hex
      cases hsrc : fs.lookup src with
      | none => simp [MoveFile, hsrc] at h
      | some c =>
        obtain ⟨ren, cf, ccf, tc, sf, rsf, ts⟩ := env
        cases ren <;> cases cf <;> cases ccf <;> cases sf <;> cases rsf <;>
          simp [MoveFile, copyFile, hsrc, hex', lookup_mkdirAll] at h

/-- Witness for C9: a conflict-free move with strategy `skip` succeeds, and
a concrete unknown-strategy failure exhibits an occupied destination. -/
theorem c9_no_conflict_ignores_strategy_witness :
    MoveFile ⟨.ok, false, false, "", false, false, "ts"⟩ ⟨[("s/a.txt", "A")], []⟩
        "s/a.txt" "d" "skip"
      = (.ok (), ((FState.mkdirAll ⟨[("s/a.txt", "A")], []⟩ "d").removeFile "s/a.txt").setFile
          (pathJoin "d" (pathBase "s/a.txt")) "A")
    ∧ FState.existsPath ⟨[("s/b.txt", "S"), ("d/b.txt", "B")], []⟩
        (pathJoin "d" (pathBase "s/b.txt")) = true :=
  ⟨c9_no_conflict_ignores_strategy.1 ⟨.ok, false, false, "", false, false, "ts"⟩
     ⟨[("s/a.txt", "A")], []⟩ "s/a.txt" "d" "skip" "A" rfl (by decide) (by decide),
   c9_no_conflict_ignores_strategy.2 ⟨.ok, false, false, "", false, false, "ts"⟩
     ⟨[("s/b.txt", "S"), ("d/b.txt", "B")], []⟩ "s/b.txt" "d" "skip" "skip"
     (FState.mkdirAll ⟨[("s/b.txt", "S"), ("d/b.txt", "B")], []⟩ "d") rfl⟩

end GAA

